import Mathlib

/-!
Verification of the readai backend's page-cache, conversation and audio-codec
layer against its natural-language specification.

The JavaScript source is embedded shallowly:
* JavaScript runtime values that the code inspects dynamically are modelled by
  `JSVal` (null, undefined, booleans, numbers, strings, objects, arrays).
* `JSON.parse` (a JS builtin, not code of this repository) is modelled by
  `jsonParse`, a fuel-based recursive-descent parser for the JSON fragment the
  claims exercise (integer numerals, the basic string escapes, objects, arrays,
  `null` / `true` / `false`).  Real `JSON.parse` additionally accepts fractional
  and exponent numerals and `\uXXXX` escapes; none of the theorems below depend
  on inputs in that gap.
* Functions that can throw return `Option` / `Except`; `none` (resp. `.error`)
  is a thrown exception.
* Machine integers are `Nat` / `Int` with explicit range checks where the
  JavaScript runtime enforces them (Node `Buffer.writeUIntNLE`).
-/

/-- Model of a JavaScript runtime value, as far as the embedded code inspects
one: `typeof` checks, truthiness, and property access. -/
inductive JSVal where
  | null
  | undefined
  | boolean (b : Bool)
  | number (n : Int)
  | string (s : String)
  | object (fields : List (String × JSVal))
  | array (elems : List JSVal)

/-- JavaScript truthiness (`!v` in the source): `null`, `undefined`, `false`,
`0` and `""` are falsy; objects and arrays are always truthy.  (`NaN` does not
arise for the modelled values.) -/
def JSVal.isFalsy : JSVal → Bool
  | .null => true
  | .undefined => true
  | .boolean b => !b
  | .number n => n == 0
  | .string s => s == ""
  | .object _ => false
  | .array _ => false

/-- Source check `typeof v === 'string'`. -/
def JSVal.isString : JSVal → Bool
  | .string _ => true
  | _ => false

/-- JavaScript property access `v[key]`: throws (`none`) on `null` and
`undefined`; yields `undefined` for a missing key or a primitive receiver. -/
def JSVal.getProp : JSVal → String → Option JSVal
  | .null, _ => none
  | .undefined, _ => none
  | .object fields, k =>
      some (match fields.lookup k with
            | some v => v
            | none => .undefined)
  | _, _ => some .undefined

/-- Source coercion `typeof v === 'string' ? v : ''` — the coercion `normalizeExtractedText`
applies to each field. -/
def JSVal.strOrEmpty : JSVal → String
  | .string s => s
  | _ => ""

/-! ### A model of the `JSON.parse` builtin -/

/-- JSON whitespace skipping. -/
def skipWs : List Char → List Char
  | c :: cs => if c = ' ' ∨ c = '\t' ∨ c = '\n' ∨ c = '\r' then skipWs cs else c :: cs
  | [] => []

/-- Consume an expected literal character sequence. -/
def dropLit : List Char → List Char → Option (List Char)
  | [], cs => some cs
  | l :: ls, c :: cs => if c = l then dropLit ls cs else none
  | _ :: _, [] => none

/-- Decode one JSON string-escape character. -/
def unescape (e : Char) : Option Char :=
  if e = '"' then some '"'
  else if e = '\\' then some '\\'
  else if e = '/' then some '/'
  else if e = 'n' then some '\n'
  else if e = 't' then some '\t'
  else if e = 'r' then some '\r'
  else if e = 'b' then some (Char.ofNat 8)
  else if e = 'f' then some (Char.ofNat 12)
  else none

/-- Body of a JSON string literal (opening quote already consumed). -/
def parseJStr : Nat → List Char → Option (List Char × List Char)
  | 0, _ => none
  | _, [] => none
  | fuel + 1, c :: cs =>
    if c = '"' then some ([], cs)
    else if c = '\\' then
      match cs with
      | [] => none
      | e :: cs' =>
        match unescape e with
        | none => none
        | some ch =>
          match parseJStr fuel cs' with
          | none => none
          | some (s, rest) => some (ch :: s, rest)
    else
      match parseJStr fuel cs with
      | none => none
      | some (s, rest) => some (c :: s, rest)

/-- Leading decimal digits. -/
def parseDigits (cs : List Char) : Option (Nat × List Char) :=
  let ds := cs.takeWhile Char.isDigit
  if ds.isEmpty then none
  else some (ds.foldl (fun a c => a * 10 + (c.toNat - 48)) 0, cs.drop ds.length)

mutual

/-- One JSON value. -/
def parseVal : Nat → List Char → Option (JSVal × List Char)
  | 0, _ => none
  | fuel + 1, cs =>
    match skipWs cs with
    | [] => none
    | c :: rest =>
      if c = 'n' then
        (dropLit ['u', 'l', 'l'] rest).map (fun r => (JSVal.null, r))
      else if c = 't' then
        (dropLit ['r', 'u', 'e'] rest).map (fun r => (JSVal.boolean true, r))
      else if c = 'f' then
        (dropLit ['a', 'l', 's', 'e'] rest).map (fun r => (JSVal.boolean false, r))
      else if c = '"' then
        (parseJStr fuel rest).map (fun p => (JSVal.string (String.mk p.1), p.2))
      else if c = '-' then
        (parseDigits rest).map (fun p => (JSVal.number (-(p.1 : Int)), p.2))
      else if c.isDigit then
        (parseDigits (c :: rest)).map (fun p => (JSVal.number (p.1 : Int), p.2))
      else if c = '[' then
        match skipWs rest with
        | ']' :: r => some (JSVal.array [], r)
        | r =>
          match parseElems fuel r with
          | none => none
          | some (es, r') => some (JSVal.array es, r')
      else if c = '{' then
        match skipWs rest with
        | '}' :: r => some (JSVal.object [], r)
        | r =>
          match parseMembers fuel r with
          | none => none
          | some (fs, r') => some (JSVal.object fs, r')
      else none

/-- Non-empty comma-separated array elements, including the closing `]`. -/
def parseElems : Nat → List Char → Option (List JSVal × List Char)
  | 0, _ => none
  | fuel + 1, cs =>
    match parseVal fuel cs with
    | none => none
    | some (v, rest) =>
      match skipWs rest with
      | ',' :: r =>
        match parseElems fuel r with
        | none => none
        | some (es, r') => some (v :: es, r')
      | ']' :: r => some ([v], r)
      | _ => none

/-- Non-empty comma-separated object members, including the closing `}`. -/
def parseMembers : Nat → List Char → Option (List (String × JSVal) × List Char)
  | 0, _ => none
  | fuel + 1, cs =>
    match skipWs cs with
    | '"' :: r =>
      match parseJStr fuel r with
      | none => none
      | some (k, rest) =>
        match skipWs rest with
        | ':' :: r' =>
          match parseVal fuel r' with
          | none => none
          | some (v, rest') =>
            match skipWs rest' with
            | ',' :: r'' =>
              match parseMembers fuel r'' with
              | none => none
              | some (fs, rest'') => some ((String.mk k, v) :: fs, rest'')
            | '}' :: r'' => some ([(String.mk k, v)], r'')
            | _ => none
        | _ => none
    | _ => none

end

/-- The builtin `JSON.parse` never produces `undefined`; this guard records that fact in
the model. -/
def rejectUndefined : JSVal → Option JSVal
  | .undefined => none
  | v => some v

/-- Model of `JSON.parse`: parse one value, require only trailing whitespace,
throw (`none`) otherwise. -/
def jsonParse (s : String) : Option JSVal :=
  match parseVal (s.length + 1) s.data with
  | none => none
  | some (v, rest) =>
    if (skipWs rest).isEmpty then rejectUndefined v
    else none

/-! ### `pageCacheService.normalizeExtractedText` -/

/-- The normalized `{header, body, footer}` record the page cache returns. -/
structure ExtractedText where
  header : String
  body : String
  footer : String
deriving DecidableEq, Repr

/-- The three `typeof parsed.X === 'string' ? parsed.X : ''` coercions of
`normalizeExtractedText`.  Property access on `null` / `undefined` throws,
hence the `Option`. -/
def coerceFields (parsed : JSVal) : Option ExtractedText :=
  match parsed.getProp "header", parsed.getProp "body", parsed.getProp "footer" with
  | some h, some b, some f => some ⟨h.strOrEmpty, b.strOrEmpty, f.strOrEmpty⟩
  | _, _, _ => none

/-- Source `pageCacheService.normalizeExtractedText(rawText)`
(src/backend/src/services/pageCacheService.js:66-91): falsy input yields the
all-empty record; a string is `JSON.parse`d, with the whole raw string used as
`body` on parse failure; the three fields of the parsed value are then coerced
with `typeof`-checks.  `none` models a thrown exception. -/
def normalizeExtractedText (rawText : JSVal) : Option ExtractedText :=
  if rawText.isFalsy then some ⟨"", "", ""⟩
  else
    match rawText with
    | .string s =>
      match jsonParse s with
      | some parsed => coerceFields parsed
      | none => some ⟨"", s, ""⟩
    | _ => coerceFields rawText

/-! ### `conversationService` — the History Curator
(src/backend/src/services/conversationService.js) -/

/-- One history entry as the JavaScript code sees it: an object whose `role`
and `content` properties may be absent (`undefined`) or of any runtime type. -/
structure MsgEntry where
  role : JSVal
  content : JSVal

/-- The argument of the history functions: either an array of entries, or any
value failing the `!messages || !Array.isArray(messages)` guard (null,
undefined, or a non-array). -/
inductive HistArg (α : Type) where
  | nonArray
  | arr (xs : List α)

/-- Source `messages.slice(-maxMessages)` for a nonnegative `maxMessages`: the last
`maxMessages` elements — except that `slice(-0)` is `slice(0)`, the whole
array. -/
def jsSliceLast (xs : List α) (m : Nat) : List α :=
  if m = 0 then xs else xs.drop (xs.length - m)

/-- Source `conversationService.trimHistory(messages, maxMessages = 10)`
(conversationService.js:30-45): slice to the most recent `maxMessages`, then
drop one more oldest entry when the sliced length is odd and greater than 1. -/
def trimHistory (messages : HistArg α) (maxMessages : Nat) : List α :=
  match messages with
  | .nonArray => []
  | .arr xs =>
    let trimmed := jsSliceLast xs maxMessages
    if trimmed.length % 2 ≠ 0 ∧ trimmed.length > 1 then trimmed.drop 1
    else trimmed

/-- Spec-side companion for C4, following the claim's words: "the most recent
`maxMessages` entries" of a list. -/
def mostRecent (m : Nat) (xs : List α) : List α :=
  (xs.reverse.take m).reverse

/-- Source `conversationService.estimateTokens(text)` (conversationService.js:52-60):
`0` for falsy or non-string input, else `Math.ceil(text.length / 4)`. -/
def estimateTokens (text : JSVal) : Nat :=
  match text with
  | .string s => if s = "" then 0 else (s.length + 3) / 4
  | _ => 0

/-- One turn of the Gemini `contents` parameter:
`{role, parts: [{text}]}`. -/
structure GeminiTurn where
  role : String
  partText : JSVal

/-- Source `conversationService.formatHistoryForGemini(messages)`
(conversationService.js:13-22): `[]` for a non-array, else each entry mapped to
`{role: role === 'user' ? 'user' : 'model', parts: [{text: content}]}`. -/
def formatHistoryForGemini (messages : HistArg MsgEntry) : List GeminiTurn :=
  match messages with
  | .nonArray => []
  | .arr xs =>
    xs.map (fun m =>
      { role := match m.role with
                | .string s => if s = "user" then "user" else "model"
                | _ => "model"
        partText := m.content })

/-- The violations `validateHistory` reports, with the entry index where the
source interpolates it into the error message. -/
inductive HistError where
  | notArray
  | tooLong
  | missingRoleOrContent (i : Nat)
  | invalidRole (i : Nat)
  | nonStringContent (i : Nat)
  | contentTooLong (i : Nat)
deriving DecidableEq, Repr

/-- The `{isValid, error}` result of `validateHistory`. -/
structure ValidationResult where
  isValid : Bool
  error : Option HistError
deriving DecidableEq, Repr

/-- Source `message.content.length` once `content` is known to be a string. -/
def contentLength : JSVal → Nat
  | .string s => s.length
  | _ => 0

/-- Source `['user', 'assistant'].includes(message.role)` — strict equality against
the two role strings. -/
def roleAllowed : JSVal → Bool
  | .string s => s == "user" || s == "assistant"
  | _ => false

/-- The per-entry loop of `validateHistory` (conversationService.js:114-132),
returning the first violation: `!role || !content` (truthiness!), then role
membership in `['user','assistant']`, then `typeof content !== 'string'`, then
`content.length > 10000`. -/
def validateEntries : Nat → List MsgEntry → Option HistError
  | _, [] => none
  | i, m :: rest =>
    if m.role.isFalsy ∨ m.content.isFalsy then some (.missingRoleOrContent i)
    else if ¬ roleAllowed m.role then some (.invalidRole i)
    else if ¬ m.content.isString then some (.nonStringContent i)
    else if contentLength m.content > 10000 then some (.contentTooLong i)
    else validateEntries (i + 1) rest

/-- Source `conversationService.validateHistory(messages)`
(conversationService.js:105-135): non-array fails, length above 50 fails, then
the entry loop short-circuits on the first violation. -/
def validateHistory (messages : HistArg MsgEntry) : ValidationResult :=
  match messages with
  | .nonArray => ⟨false, some .notArray⟩
  | .arr xs =>
    if xs.length > 50 then ⟨false, some .tooLong⟩
    else
      match validateEntries 0 xs with
      | some e => ⟨false, some e⟩
      | none => ⟨true, none⟩

/-- Spec-side companion for C5, following the claim's words: an entry is valid
when its role is `user` or `assistant`, its content is a string, and the
content is at most 10000 characters. -/
def claimEntryValid (m : MsgEntry) : Prop :=
  (m.role = .string "user" ∨ m.role = .string "assistant") ∧
  m.content.isString = true ∧ contentLength m.content ≤ 10000

/-! ### `pageCacheService.getOrExtractPageText` — the page text cache
(src/backend/src/services/pageCacheService.js:16-64) -/

/-- A thrown JavaScript error, identified by its message. -/
structure JsError where
  message : String
deriving DecidableEq, Repr

/-- The persistent state the text path of the cache reads and writes: the
`page_texts` rows, keyed by `(bookId, pageNumber)` and holding the stored
`extracted_text` value.  (The confidence score, timing columns and the lazily
created `pages` rows are elided: `getOrExtractPageText` never branches on
them.) -/
structure TextCacheState where
  texts : List ((String × Nat) × JSVal)

/-- Source `supabaseService.getPageTextByBookAndNumber(bookId, pageNumber)`,
restricted to the stored `extracted_text` value. -/
def lookupText (texts : List ((String × Nat) × JSVal)) (bookId : String)
    (pageNumber : Nat) : Option JSVal :=
  (texts.find? (fun e => e.1.1 == bookId && e.1.2 == pageNumber)).map (·.2)

/-- The `{cached, text}` part of the result of `getOrExtractPageText`. -/
structure TextResult where
  cached : Bool
  text : ExtractedText
deriving DecidableEq, Repr

/-- Source `pageCacheService.getOrExtractPageText(bookId, pageNumber, imageData,
mimeType, userId)`: on a hit, normalize the stored text and return
`cached: true` without touching the Generation Backend; on a miss, call
`geminiService.processImageToText` (the `extract` parameter — it may throw),
save the raw result, and return `cached: false` with the normalized text.
The returned triple is (result or thrown error, whether the Generation
Backend's image-to-text capability was invoked, the state afterwards). -/
def getOrExtractPageText (extract : String → String → Except JsError JSVal)
    (st : TextCacheState) (bookId : String) (pageNumber : Nat)
    (imageData mimeType : String) :
    Option TextResult × Bool × TextCacheState :=
  match lookupText st.texts bookId pageNumber with
  | some stored =>
    match normalizeExtractedText stored with
    | some t => (some ⟨true, t⟩, false, st)
    | none => (none, false, st)
  | none =>
    match extract imageData mimeType with
    | .error _ => (none, true, st)
    | .ok extracted =>
      let st' : TextCacheState := ⟨((bookId, pageNumber), extracted) :: st.texts⟩
      match normalizeExtractedText extracted with
      | some t => (some ⟨false, t⟩, true, st')
      | none => (none, true, st')

/-! ### `chatController.sendMessage`
(src/backend/src/controllers/chatController.js:124-236) -/

/-- The `ai_conversations` row fields `sendMessage` branches on. -/
structure Conversation where
  user_id : String
  cache_expires_at : Option Int
  gemini_file_uri : Option String

/-- The distinct ways `sendMessage` concludes.  `expired` models a thrown
`CacheExpiredError`, which the catch block maps to HTTP 410 with code
`CACHE_EXPIRED` (a retryable client state), distinct from every other
outcome. -/
inductive SendOutcome where
  | badRequest
  | notFound
  | accessDenied
  | expired (message : String)
  | invalidHistory (e : HistError)
  | upstreamFailure
  | reply (text : String)
deriving DecidableEq, Repr

/-- The observable effects of one `sendMessage` call: its outcome, whether the
Generation Backend's grounded-generation capability was invoked
(`geminiDocumentService.generateWithFile`), and how many messages were
persisted (`supabaseService.createMessage` calls). -/
structure SendResult where
  outcome : SendOutcome
  backendCalled : Bool
  messagesPersisted : Nat
deriving DecidableEq, Repr

/-- Source `chatController.sendMessage(req, res, next)`: required-field and length
checks, then conversation lookup (404), ownership (403), expiry and
unbound-reference checks (both `CacheExpiredError`), history validation (400),
then the generation call and the two `createMessage` writes.  `findConversation`
models `supabaseService.getConversationById`, `history` the messages loaded by
`getConversationMessages`, `generate` the grounded generation call (it is
handed the trimmed history in the source; here its result is a parameter). -/
def sendMessage (findConversation : String → Option Conversation)
    (generate : Except JsError String) (userId conversationId message : String)
    (now : Int) (history : HistArg MsgEntry) : SendResult :=
  if conversationId = "" ∨ message = "" then ⟨.badRequest, false, 0⟩
  else if message.length > 10000 then ⟨.badRequest, false, 0⟩
  else
    match findConversation conversationId with
    | none => ⟨.notFound, false, 0⟩
    | some conversation =>
      if conversation.user_id ≠ userId then ⟨.accessDenied, false, 0⟩
      else if (match conversation.cache_expires_at with
               | some t => decide (t < now)
               | none => false) then
        ⟨.expired "File has expired. Please upload the book again.", false, 0⟩
      else if (match conversation.gemini_file_uri with
               | some u => u == ""
               | none => true) then
        ⟨.expired "Conversation is not prepared for chat", false, 0⟩
      else
        match (validateHistory history).error with
        | some e => ⟨.invalidHistory e, false, 0⟩
        | none =>
          match generate with
          | .error _ => ⟨.upstreamFailure, true, 0⟩
          | .ok text => ⟨.reply text, true, 2⟩

/-! ### `parseMimeType`, `createWavHeader`, `convertToWav` — the Audio Codec
(src/backend/index.js:375-436; `pageCacheService.getOrGeneratePageAudio` pipes
the raw Gemini payload through `convertToWav`). -/

/-- JavaScript `String.prototype.split` with a one-character separator:
splits at every occurrence, keeps empty pieces, `""` yields `[""]`. -/
def splitChar (sep : Char) : List Char → List (List Char)
  | [] => [[]]
  | c :: cs =>
    let r := splitChar sep cs
    if c = sep then [] :: r
    else
      match r with
      | [] => [[c]]
      | p :: ps => (c :: p) :: ps

/-- JavaScript `String.prototype.trim`: strip leading and trailing
whitespace. -/
def jsTrim (cs : List Char) : List Char :=
  ((cs.dropWhile Char.isWhitespace).reverse.dropWhile Char.isWhitespace).reverse

/-- Source `parseInt(value, 10)`: `none` models `NaN` (also the result of
`parseInt(undefined, 10)`).  Leading whitespace is skipped, an optional sign
then leading decimal digits are read, trailing garbage is ignored. -/
def jsParseInt : Option (List Char) → Option Int
  | none => none
  | some cs =>
    match cs.dropWhile Char.isWhitespace with
    | '-' :: cs' => (parseDigits cs').map (fun p => -(p.1 : Int))
    | '+' :: cs' => (parseDigits cs').map (fun p => (p.1 : Int))
    | cs' => (parseDigits cs').map (fun p => (p.1 : Int))

/-- The `options` record `parseMimeType` builds.  `sampleRate = none` models
`NaN` (a `rate` parameter that did not parse).  `numChannels` is never
reassigned by the source, so it is always the default `1`. -/
structure ParsedMime where
  numChannels : Nat
  sampleRate : Option Int
  bitsPerSample : Int
deriving DecidableEq, Repr

/-- Source `parseMimeType(mimeType)` (src/backend/index.js:382-407): split on `;`,
trim; bit depth from an `L<N>` token of the subtype (kept at 16 when `N` is
not a number); sample rate from the last `rate=` parameter — assigned even
when `parseInt` yields `NaN`. -/
def parseMimeType (mimeType : String) : ParsedMime :=
  let parts := (splitChar ';' mimeType.data).map jsTrim
  let fileType := parts.headD []
  let params := parts.tail
  let format : Option (List Char) := ((splitChar '/' fileType).drop 1).head?
  let bits : Int :=
    match format with
    | some f =>
      if ['L'].isPrefixOf f then
        match jsParseInt (some (f.drop 1)) with
        | some b => b
        | none => 16
      else 16
    | none => 16
  let rate : Option Int := params.foldl (fun acc param =>
    let kv := (splitChar '=' param).map jsTrim
    let key := kv.headD []
    let value : Option (List Char) := (kv.drop 1).head?
    if key = ['r', 'a', 't', 'e'] then jsParseInt value else acc) (some 22050)
  ⟨1, rate, bits⟩

/-- Little-endian byte lists, as `Buffer.writeUInt16LE` / `writeUInt32LE`
store an in-range integer. -/
def u16le (v : Nat) : List Nat := [v % 256, v / 256 % 256]

/-- Four little-endian bytes of a value below `2^32`. -/
def u32le (v : Nat) : List Nat :=
  [v % 256, v / 256 % 256, v / 65536 % 256, v / 16777216 % 256]

/-- Node's `Buffer.writeUIntNLE` value handling (`checkInt` in
lib/internal/buffer.js): throw `ERR_OUT_OF_RANGE` iff `value > max` or
`value < 0` — comparisons that `NaN` (modelled as `none`) passes, after which
the byte stores coerce `NaN` to `0` and truncate an in-range fractional value
toward zero.  Every number reaching a write in `createWavHeader` is a multiple
of `1/8` (the only division is by 8), so the JavaScript float is represented
exactly as its numerator over 8: the argument `v8` is `8 ×` the written
value. -/
def chkWrite (max : Nat) (v8 : Option Int) : Option Nat :=
  match v8 with
  | none => some 0
  | some n => if n > 8 * max ∨ n < 0 then none else some (n / 8).toNat

/-- Source `createWavHeader(dataLength, options)` (src/backend/index.js:409-436): the
44-byte canonical WAV header.  `byteRate = sampleRate * numChannels *
bitsPerSample / 8` and `blockAlign = numChannels * bitsPerSample / 8` are
JavaScript float divisions (their numerators over 8 are passed to `chkWrite`,
with `NaN` propagated from a `NaN` sample rate); each `Buffer.write*` is
guarded by `chkWrite`.  `none` models a thrown `ERR_OUT_OF_RANGE`. -/
def createWavHeader (dataLength : Nat) (o : ParsedMime) : Option (List Nat) :=
  match chkWrite (2 ^ 32 - 1) (some (8 * (36 + (dataLength : Int)))),
        chkWrite (2 ^ 16 - 1) (some (8 * (o.numChannels : Int))),
        chkWrite (2 ^ 32 - 1) (o.sampleRate.map (fun r => 8 * r)),
        chkWrite (2 ^ 32 - 1) (o.sampleRate.map (fun r => r * o.numChannels * o.bitsPerSample)),
        chkWrite (2 ^ 16 - 1) (some ((o.numChannels : Int) * o.bitsPerSample)),
        chkWrite (2 ^ 16 - 1) (some (8 * o.bitsPerSample)),
        chkWrite (2 ^ 32 - 1) (some (8 * (dataLength : Int))) with
  | some cs, some ch, some sr, some br, some ba, some bs, some dl =>
    some ([82, 73, 70, 70] ++ u32le cs ++       -- 'RIFF', ChunkSize
          [87, 65, 86, 69] ++                   -- 'WAVE'
          [102, 109, 116, 32] ++ u32le 16 ++    -- 'fmt ', Subchunk1Size
          u16le 1 ++                            -- AudioFormat (1 = PCM)
          u16le ch ++ u32le sr ++ u32le br ++
          u16le ba ++ u16le bs ++
          [100, 97, 116, 97] ++ u32le dl)       -- 'data', Subchunk2Size
  | _, _, _, _, _, _, _ => none

/-- Source `convertToWav(rawData, mimeType)` (src/backend/index.js:375-380) — the
spec's `wrapAsPlayableAudio`.  `rawData` is taken here as the already
base64-decoded payload bytes. -/
def convertToWav (rawData : List Nat) (mimeType : String) : Option (List Nat) :=
  match createWavHeader rawData.length (parseMimeType mimeType) with
  | none => none
  | some header => some (header ++ rawData)

/-- Source `Math.round(a / b)` for naturals (`b ≠ 0`): floor of `a/b + 1/2`. -/
def jsRoundDiv (a b : Nat) : Nat := (2 * a + b) / (2 * b)

/-- The duration computed and persisted on the audio cache-miss path
(`pageCacheService.getOrGeneratePageAudio`, pageCacheService.js:126-148):
`Math.round(wavBuffer.length / (44100 * 2 * 2))` — the divisor is the
hard-coded default profile, written whatever `mimeType` Gemini reported.
`none` models `convertToWav` throwing. -/
def pageAudioMissDuration (payload : List Nat) (mimeType : String) : Option Nat :=
  (convertToWav payload mimeType).map (fun wav => jsRoundDiv wav.length (44100 * 2 * 2))

/-- Spec-side companion for C6, following the claim's words: duration =
`round(byteLength / (sampleRate × channelCount × bytesPerSample))`. -/
def specDuration (byteLength sampleRate channelCount bytesPerSample : Nat) : Nat :=
  jsRoundDiv byteLength (sampleRate * channelCount * bytesPerSample)

/-! ### `geminiService` — upstream calls and the retry loop
(src/unnamed/part_004: `processImageToText`, `generateAudio`,
`retryWithBackoff`, `parseResponse`). -/

/-- Substring test, for `error.message.includes('429')`. -/
def hasSub (needle : List Char) : List Char → Bool
  | [] => needle.isEmpty
  | c :: cs => needle.isPrefixOf (c :: cs) || hasSub needle cs

/-- Source `error.message && error.message.includes('429')` — the rate-limit
detector. -/
def includes429 (e : JsError) : Bool := hasSub "429".data e.message.data

/-- The `while (attempts < maxAttempts)` loop of
`geminiService.retryWithBackoff` (part_004:163-183).  `op n` is the outcome of
the `n`-th invocation of the wrapped operation; the fuel argument equals
`maxAttempts - attempts` and only bounds the structural recursion.  Returns
the final outcome (`none` models the `undefined` fall-through when
`maxAttempts = 0`) and the list of back-off delays waited
(`Math.pow(2, attempts) * retryDelay` after the increment). -/
def retryLoop (op : Nat → Except JsError α) (maxAttempts retryDelay : Nat) :
    Nat → Nat → Option (Except JsError α) × List Nat
  | _, 0 => (none, [])
  | attempts, fuel + 1 =>
    match op attempts with
    | .ok a => (some (.ok a), [])
    | .error e =>
      if includes429 e ∧ attempts + 1 < maxAttempts then
        let rest := retryLoop op maxAttempts retryDelay (attempts + 1) fuel
        (rest.1, 2 ^ (attempts + 1) * retryDelay :: rest.2)
      else (some (.error e), [])

/-- Source `geminiService.retryWithBackoff(operation)` with the configuration values
`config.maxRetries` and `config.retryDelay` made explicit. -/
def retryWithBackoff (op : Nat → Except JsError α) (maxAttempts retryDelay : Nat) :
    Option (Except JsError α) × List Nat :=
  retryLoop op maxAttempts retryDelay 0 maxAttempts

/-- Source `geminiService.parseResponse(fullText)` (part_004:185-201): `JSON.parse`
with the `{header: "", body: fullText || "Text extraction failed", footer: ""}`
fallback. -/
def parseResponse (fullText : String) : JSVal :=
  match jsonParse fullText with
  | some v => v
  | none =>
    .object [("header", .string ""),
             ("body", .string (if fullText = "" then "Text extraction failed" else fullText)),
             ("footer", .string "")]

/-- Source `geminiService.processImageToText(imageData, mimeType)` (part_004:20-98):
input validation, then a single `generateContentStream` call (`upstream 0`,
with the accumulated chunk text as its result) — there is no retry wrapper on
this path.  Returns the outcome and the number of upstream invocations. -/
def processImageToText (imageData mimeType : String)
    (upstream : Nat → Except JsError String) : Except JsError JSVal × Nat :=
  if imageData = "" then (.error ⟨"Image data is required"⟩, 0)
  else if mimeType = "" then (.error ⟨"MIME type is required"⟩, 0)
  else if ¬ ("image/".data.isPrefixOf mimeType.data) then
    (.error ⟨"Invalid MIME type. Expected image type."⟩, 0)
  else
    match upstream 0 with
    | .error e => (.error e, 1)
    | .ok fullText => (.ok (parseResponse fullText), 1)

/-- The `inlineData` of a Gemini audio response. -/
structure AudioChunk where
  data : String
  mimeType : String
deriving DecidableEq, Repr

/-- The text truncation at the top of `generateAudio` (part_004:106-108). -/
def truncateForAudio (text : String) (maxTextLength : Nat) : String :=
  if text.length > maxTextLength then (text.take maxTextLength) ++ "..." else text

/-- Source `geminiService.generateAudio(text)` (part_004:105-156): truncate the text,
then run the `generateContent` call inside `retryWithBackoff`.  `upstream t n`
is the outcome of the `n`-th call with prompt `t` (`Option AudioChunk` models
whether the response carried `inlineData`; its absence becomes the thrown
`'No audio data in response'`). -/
def generateAudio (text : String) (maxTextLength maxRetries retryDelay : Nat)
    (upstream : String → Nat → Except JsError (Option AudioChunk)) :
    Option (Except JsError AudioChunk) × List Nat :=
  let truncatedText := truncateForAudio text maxTextLength
  retryWithBackoff (fun n =>
    match upstream truncatedText n with
    | .error e => .error e
    | .ok none => .error ⟨"No audio data in response"⟩
    | .ok (some chunk) => .ok chunk) maxRetries retryDelay

/-! ## Theorems -/

/-- Missing-property access `parsed.k`, defined for the values on which it does
not throw: the property value, or `undefined`. -/
def jsField (v : JSVal) (k : String) : JSVal := (v.getProp k).getD .undefined


theorem rejectUndefined_ne {w v : JSVal} (h : rejectUndefined w = some v) :
    v ≠ JSVal.undefined := by
  cases w <;>
    first
    | exact Option.noConfusion h
    | (injection h with h'; subst h'; intro hv; cases hv)

theorem jsonParse_not_undefined {s : String} {v : JSVal}
    (h : jsonParse s = some v) : v ≠ JSVal.undefined := by
  unfold jsonParse at h
  split at h
  · exact Option.noConfusion h
  · split at h
    · exact rejectUndefined_ne h
    · exact Option.noConfusion h

theorem coerceFields_eq {v : JSVal} (h1 : v ≠ JSVal.null) (h2 : v ≠ JSVal.undefined) :
    coerceFields v =
      some ⟨(jsField v "header").strOrEmpty, (jsField v "body").strOrEmpty,
            (jsField v "footer").strOrEmpty⟩ := by
  cases v with
  | null => exact absurd rfl h1
  | undefined => exact absurd rfl h2
  | boolean b => rfl
  | number n => rfl
  | string s => rfl
  | object fs => rfl
  | array es => rfl

/-- C3 counterexample: the stored value `"null"` is a string that
`JSON.parse`s successfully — to `null` — after which the `parsed.header`
access throws a `TypeError`; `normalizeExtractedText` is not total, contrary
to the claim's "never fails for any stored value". -/
theorem c3_normalize_counterexample :
    jsonParse "null" = some JSVal.null ∧
    normalizeExtractedText (JSVal.string "null") = none :=
  ⟨rfl, rfl⟩

/-- C3 (amended): `normalizeExtractedText` maps `null`/`undefined` to the
all-empty record; a string failing to parse becomes the `body` of an otherwise
empty record; any parsed or already-structured value other than `null` has
each of `header`/`body`/`footer` returned verbatim when a string and coerced
to `""` otherwise; and the function only throws when the input is a string
whose JSON parse is `null` — on every other stored value it succeeds. -/
theorem c3_normalize_total_amended :
    (normalizeExtractedText JSVal.null = some ⟨"", "", ""⟩ ∧
     normalizeExtractedText JSVal.undefined = some ⟨"", "", ""⟩) ∧
    (∀ s : String, jsonParse s = none →
      normalizeExtractedText (JSVal.string s) = some ⟨"", s, ""⟩) ∧
    (∀ v : JSVal, v.isFalsy = false → v.isString = false →
      normalizeExtractedText v =
        some ⟨(jsField v "header").strOrEmpty, (jsField v "body").strOrEmpty,
              (jsField v "footer").strOrEmpty⟩) ∧
    (∀ (s : String) (v : JSVal), jsonParse s = some v → v ≠ JSVal.null →
      normalizeExtractedText (JSVal.string s) =
        some ⟨(jsField v "header").strOrEmpty, (jsField v "body").strOrEmpty,
              (jsField v "footer").strOrEmpty⟩) ∧
    (∀ v : JSVal, (∀ s : String, v = JSVal.string s → jsonParse s ≠ some JSVal.null) →
      (normalizeExtractedText v).isSome = true) := by
  have hstrfalsy : ∀ s : String, s ≠ "" → (JSVal.string s).isFalsy = false := by
    intro s h0
    simp [JSVal.isFalsy, h0]
  refine ⟨⟨rfl, rfl⟩, ?_, ?_, ?_, ?_⟩
  · intro s hs
    by_cases h0 : s = ""
    · subst h0; rfl
    · unfold normalizeExtractedText
      rw [hstrfalsy s h0]
      simp only [Bool.false_eq_true, if_false, hs]
  · intro v hf hs
    unfold normalizeExtractedText
    rw [hf]
    simp only [Bool.false_eq_true, if_false]
    cases v with
    | null => simp [JSVal.isFalsy] at hf
    | undefined => simp [JSVal.isFalsy] at hf
    | string s => simp [JSVal.isString] at hs
    | boolean b => exact coerceFields_eq (by intro h; cases h) (by intro h; cases h)
    | number n => exact coerceFields_eq (by intro h; cases h) (by intro h; cases h)
    | object fs => exact coerceFields_eq (by intro h; cases h) (by intro h; cases h)
    | array es => exact coerceFields_eq (by intro h; cases h) (by intro h; cases h)
  · intro s v hp hv
    have h0 : s ≠ "" := by
      intro h
      subst h
      have hp' := hp
      rw [show jsonParse "" = none from rfl] at hp'
      exact Option.noConfusion hp'
    unfold normalizeExtractedText
    rw [hstrfalsy s h0]
    simp only [Bool.false_eq_true, if_false, hp]
    exact coerceFields_eq hv (jsonParse_not_undefined hp)
  · intro v hnonnull
    by_cases hf : v.isFalsy = true
    · unfold normalizeExtractedText
      rw [hf]
      rfl
    · rw [Bool.not_eq_true] at hf
      unfold normalizeExtractedText
      rw [hf]
      simp only [Bool.false_eq_true, if_false]
      cases v with
      | null => simp [JSVal.isFalsy] at hf
      | undefined => simp [JSVal.isFalsy] at hf
      | string s =>
        rcases hp : jsonParse s with _ | w
        · simp [hp]
        · have hw : w ≠ JSVal.null := by
            intro hww
            subst hww
            exact hnonnull s rfl hp
          simp only [hp]
          rw [coerceFields_eq hw (jsonParse_not_undefined hp)]
          rfl
      | boolean b =>
        rw [coerceFields_eq (by intro h; cases h) (by intro h; cases h)]; rfl
      | number n =>
        rw [coerceFields_eq (by intro h; cases h) (by intro h; cases h)]; rfl
      | object fs =>
        rw [coerceFields_eq (by intro h; cases h) (by intro h; cases h)]; rfl
      | array es =>
        rw [coerceFields_eq (by intro h; cases h) (by intro h; cases h)]; rfl

/-- C3 witness: the amended theorem applied to the concrete stored values
`"plain page text"` (a non-JSON string), a well-formed JSON object string, and
an already-structured object with a non-string `body`. -/
theorem c3_normalize_total_amended_witness :
    (jsonParse "plain page text" = none ∧
     normalizeExtractedText (JSVal.string "plain page text") =
       some ⟨"", "plain page text", ""⟩) ∧
    normalizeExtractedText
        (JSVal.string "\x7b\"header\":\"H\",\"body\":\"B\",\"footer\":\"F\"\x7d") =
      some ⟨"H", "B", "F"⟩ ∧
    normalizeExtractedText
        (JSVal.object [("header", JSVal.string "H"), ("body", JSVal.number 7),
                       ("footer", JSVal.string "F")]) =
      some ⟨"H", "", "F"⟩ :=
  ⟨⟨rfl, c3_normalize_total_amended.2.1 "plain page text" rfl⟩,
   c3_normalize_total_amended.2.2.2.1
     "\x7b\"header\":\"H\",\"body\":\"B\",\"footer\":\"F\"\x7d"
     (JSVal.object [("header", JSVal.string "H"), ("body", JSVal.string "B"),
                    ("footer", JSVal.string "F")])
     rfl (by intro h; cases h),
   c3_normalize_total_amended.2.2.1
     (JSVal.object [("header", JSVal.string "H"), ("body", JSVal.number 7),
                    ("footer", JSVal.string "F")])
     rfl rfl⟩

theorem mostRecent_eq_drop {α : Type} (m : Nat) (xs : List α) :
    mostRecent m xs = xs.drop (xs.length - m) := by
  rw [mostRecent, ← List.rtake_eq_reverse_take_reverse, List.rtake]

/-- C4 counterexample: with bound `maxMessages = 0`, JavaScript's
`slice(-0)` is `slice(0)` — the whole array — so `trimHistory([m1,m2,m3], 0)`
keeps (all but one of) the entries instead of the claimed "most recent 0
entries" (which is empty, and empty is not odd-lengthed, so the claim's
exception clause does not apply either). -/
theorem c4_trimHistory_counterexample :
    trimHistory (HistArg.arr [0, 1, 2]) 0 = [1, 2] ∧
    mostRecent 0 [0, 1, 2] = ([] : List Nat) :=
  ⟨rfl, rfl⟩

/-- C4 (amended): for every message list and every bound `maxMessages ≥ 1`,
`trimHistory` returns exactly the most recent `maxMessages` entries, except
that when the sliced list's length is odd and greater than 1 the single oldest
entry of the slice is additionally dropped; the result is a suffix of the
input, so no other entry is removed, reordered, or altered.  (At
`maxMessages = 0` the slice is instead the entire list.) -/
theorem c4_trimHistory_amended {α : Type} (xs : List α) (m : Nat) (hm : 1 ≤ m) :
    trimHistory (HistArg.arr xs) m =
      (if (mostRecent m xs).length % 2 = 1 ∧ 1 < (mostRecent m xs).length
       then (mostRecent m xs).drop 1
       else mostRecent m xs) ∧
    (mostRecent m xs).length = min m xs.length ∧
    trimHistory (HistArg.arr xs) m <:+ xs := by
  have hslice : jsSliceLast xs m = mostRecent m xs := by
    rw [mostRecent_eq_drop, jsSliceLast, if_neg (by omega)]
  have hcond : ((jsSliceLast xs m).length % 2 ≠ 0 ∧ (jsSliceLast xs m).length > 1) ↔
      ((mostRecent m xs).length % 2 = 1 ∧ 1 < (mostRecent m xs).length) := by
    rw [hslice]
    omega
  refine ⟨?_, ?_, ?_⟩
  · simp only [trimHistory]
    rw [if_congr hcond (by rw [hslice]) (by rw [hslice])]
  · rw [mostRecent_eq_drop, List.length_drop]
    omega
  · simp only [trimHistory]
    split
    · exact (List.drop_suffix 1 _).trans (hslice ▸ mostRecent_eq_drop m xs ▸ List.drop_suffix _ xs)
    · exact hslice ▸ mostRecent_eq_drop m xs ▸ List.drop_suffix _ xs

/-- C4 witness: the amended theorem at two concrete boundary inputs — an
11-entry history with the default bound 10 slices to an even 10 entries and
keeps them all, and a 10-entry history with bound 9 slices to an odd 9 and
drops one more oldest entry. -/
theorem c4_trimHistory_amended_witness :
    (trimHistory (HistArg.arr [0, 1, 2, 3, 4, 5, 6, 7, 8, 9, 10]) 10 =
       [1, 2, 3, 4, 5, 6, 7, 8, 9, 10] ∧
     trimHistory (HistArg.arr [0, 1, 2, 3, 4, 5, 6, 7, 8, 9]) 9 =
       [2, 3, 4, 5, 6, 7, 8, 9]) ∧
    trimHistory (HistArg.arr [0, 1, 2, 3, 4, 5, 6, 7, 8, 9, 10]) 10 <:+
      [0, 1, 2, 3, 4, 5, 6, 7, 8, 9, 10] :=
  ⟨⟨rfl, rfl⟩,
   (c4_trimHistory_amended [0, 1, 2, 3, 4, 5, 6, 7, 8, 9, 10] 10 (by decide)).2.2⟩

/-- The violation kind `validateHistory` reports for a single failing entry,
in the source's check order. -/
def firstEntryError (i : Nat) (m : MsgEntry) : HistError :=
  if m.role.isFalsy ∨ m.content.isFalsy then .missingRoleOrContent i
  else if ¬ roleAllowed m.role then .invalidRole i
  else if ¬ m.content.isString then .nonStringContent i
  else .contentTooLong i

/-- Entry validity as the code enforces it — the claim's validity, amended by
the truthiness requirement: the content (a string) must also be non-empty. -/
def amendedEntryValid (m : MsgEntry) : Prop :=
  claimEntryValid m ∧ m.content.isFalsy = false

theorem entry_ok_iff (m : MsgEntry) :
    amendedEntryValid m ↔
      (¬ (m.role.isFalsy ∨ m.content.isFalsy) ∧ roleAllowed m.role ∧
       m.content.isString ∧ ¬ contentLength m.content > 10000) := by
  constructor
  · rintro ⟨⟨hrole, hstr, hlen⟩, hcf⟩
    have hrole' : roleAllowed m.role = true ∧ m.role.isFalsy = false := by
      rcases hrole with h | h <;> rw [h] <;> exact ⟨by decide, by decide⟩
    refine ⟨?_, hrole'.1, hstr, by omega⟩
    simp [hrole'.2, hcf]
  · rintro ⟨hnf, hra, hs, hlen⟩
    rw [not_or] at hnf
    refine ⟨⟨?_, hs, by omega⟩, by simpa using hnf.2⟩
    rcases hr : m.role with _ | _ | b | n | s | fs | es <;> rw [hr] at hra <;>
      simp [roleAllowed] at hra
    rcases hra with h | h
    · exact Or.inl (by rw [h])
    · exact Or.inr (by rw [h])

theorem validateEntries_ok :
    ∀ (xs : List MsgEntry) (i : Nat),
      (∀ m ∈ xs, amendedEntryValid m) → validateEntries i xs = none := by
  intro xs
  induction xs with
  | nil => intro i _; rfl
  | cons m rest ih =>
    intro i h
    have hm := (entry_ok_iff m).mp (h m (List.mem_cons_self m rest))
    unfold validateEntries
    rw [if_neg hm.1, if_neg (not_not_intro hm.2.1), if_neg (not_not_intro hm.2.2.1),
        if_neg hm.2.2.2]
    exact ih (i + 1) (fun m' hm' => h m' (List.mem_cons_of_mem _ hm'))

theorem validateEntries_first :
    ∀ (xs : List MsgEntry) (i k : Nat) (hk : k < xs.length),
      (∀ j (hj : j < xs.length), j < k → amendedEntryValid (xs.get ⟨j, hj⟩)) →
      ¬ amendedEntryValid (xs.get ⟨k, hk⟩) →
      validateEntries i xs = some (firstEntryError (i + k) (xs.get ⟨k, hk⟩)) := by
  intro xs
  induction xs with
  | nil =>
    intro i k hk
    exact absurd hk (Nat.not_lt_zero k)
  | cons m rest ih =>
    intro i k hk hpre hbad
    cases k with
    | zero =>
      have hbad' : ¬ amendedEntryValid m := hbad
      show validateEntries i (m :: rest) = some (firstEntryError i m)
      unfold validateEntries firstEntryError
      by_cases h1 : m.role.isFalsy ∨ m.content.isFalsy
      · rw [if_pos h1, if_pos h1]
      · rw [if_neg h1, if_neg h1]
        by_cases h2 : roleAllowed m.role
        · rw [if_neg (not_not_intro h2), if_neg (not_not_intro h2)]
          by_cases h3 : m.content.isString
          · rw [if_neg (not_not_intro h3), if_neg (not_not_intro h3)]
            by_cases h4 : contentLength m.content > 10000
            · rw [if_pos h4]
            · exact absurd ((entry_ok_iff m).mpr ⟨h1, h2, h3, h4⟩) hbad'
          · rw [if_pos h3, if_pos h3]
        · rw [if_pos h2, if_pos h2]
    | succ k' =>
      simp only [List.length_cons] at hk
      have hm : amendedEntryValid m := hpre 0 (by simp) (by omega)
      have hm' := (entry_ok_iff m).mp hm
      have hk' : k' < rest.length := by omega
      show validateEntries i (m :: rest) =
        some (firstEntryError (i + (k' + 1)) (rest.get ⟨k', hk'⟩))
      unfold validateEntries
      rw [if_neg hm'.1, if_neg (not_not_intro hm'.2.1), if_neg (not_not_intro hm'.2.2.1),
          if_neg hm'.2.2.2]
      have hrec := ih (i + 1) k' hk'
        (fun j hj hlt => hpre (j + 1) (by simp only [List.length_cons]; omega) (by omega))
        hbad
      rw [hrec]
      rw [show i + 1 + k' = i + (k' + 1) from by omega]

/-- C5 counterexample: the entry `{role: 'user', content: ''}` is well-formed
by the claim's criteria (valid role, string content of length 0 ≤ 10000), yet
`validateHistory` rejects it — the `!message.content` truthiness check treats
the empty string as "missing content". -/
theorem c5_validateHistory_counterexample :
    claimEntryValid ⟨JSVal.string "user", JSVal.string ""⟩ ∧
    validateHistory (HistArg.arr [⟨JSVal.string "user", JSVal.string ""⟩]) =
      ⟨false, some (HistError.missingRoleOrContent 0)⟩ :=
  ⟨⟨Or.inl rfl, rfl, by decide⟩, rfl⟩

/-- C5 (amended): `validateHistory` reports only the first violation in order
— a non-sequence input, a history longer than 50, an entry whose role or
content is absent or falsy (an empty-string content counts as missing), a role
outside {user, assistant}, non-string content, or content longer than 10000
characters; and it accepts every history of at most 50 entries whose entries
are valid in the claim's sense and additionally have non-empty content. -/
theorem c5_validateHistory_amended :
    validateHistory HistArg.nonArray = ⟨false, some HistError.notArray⟩ ∧
    (∀ xs : List MsgEntry, 50 < xs.length →
      validateHistory (HistArg.arr xs) = ⟨false, some HistError.tooLong⟩) ∧
    (∀ xs : List MsgEntry, xs.length ≤ 50 → (∀ m ∈ xs, amendedEntryValid m) →
      validateHistory (HistArg.arr xs) = ⟨true, none⟩) ∧
    (∀ (xs : List MsgEntry) (k : Nat) (hk : k < xs.length), xs.length ≤ 50 →
      (∀ j (hj : j < xs.length), j < k → amendedEntryValid (xs.get ⟨j, hj⟩)) →
      ¬ amendedEntryValid (xs.get ⟨k, hk⟩) →
      validateHistory (HistArg.arr xs) =
        ⟨false, some (firstEntryError k (xs.get ⟨k, hk⟩))⟩) := by
  refine ⟨rfl, ?_, ?_, ?_⟩
  · intro xs h
    show (if xs.length > 50 then ValidationResult.mk false (some HistError.tooLong)
          else match validateEntries 0 xs with
               | some e => ⟨false, some e⟩
               | none => ⟨true, none⟩) = ⟨false, some HistError.tooLong⟩
    rw [if_pos h]
  · intro xs hlen hall
    show (if xs.length > 50 then ValidationResult.mk false (some HistError.tooLong)
          else match validateEntries 0 xs with
               | some e => ⟨false, some e⟩
               | none => ⟨true, none⟩) = ⟨true, none⟩
    rw [if_neg (by omega), validateEntries_ok xs 0 hall]
  · intro xs k hk hlen hpre hbad
    have h0 := validateEntries_first xs 0 k hk hpre hbad
    rw [Nat.zero_add] at h0
    show (if xs.length > 50 then ValidationResult.mk false (some HistError.tooLong)
          else match validateEntries 0 xs with
               | some e => ⟨false, some e⟩
               | none => ⟨true, none⟩) =
      ⟨false, some (firstEntryError k (xs.get ⟨k, hk⟩))⟩
    rw [if_neg (by omega), h0]

/-- C5 witness: the amended theorem at a well-formed two-entry history (which
validates) and at a history whose second entry has role `"system"` (rejected
with the invalid-role error at index 1). -/
theorem c5_validateHistory_amended_witness :
    validateHistory (HistArg.arr
        [⟨JSVal.string "user", JSVal.string "hello"⟩,
         ⟨JSVal.string "assistant", JSVal.string "hi there"⟩]) = ⟨true, none⟩ ∧
    validateHistory (HistArg.arr
        [⟨JSVal.string "user", JSVal.string "hello"⟩,
         ⟨JSVal.string "system", JSVal.string "x"⟩]) =
      ⟨false, some (HistError.invalidRole 1)⟩ := by
  constructor
  · refine c5_validateHistory_amended.2.2.1 _ (by decide) ?_
    intro m hm
    simp only [List.mem_cons, List.not_mem_nil, or_false] at hm
    rcases hm with rfl | rfl
    · exact ⟨⟨Or.inl rfl, rfl, by decide⟩, rfl⟩
    · exact ⟨⟨Or.inr rfl, rfl, by decide⟩, rfl⟩
  · refine c5_validateHistory_amended.2.2.2 _ 1 (by decide) (by decide) ?_ ?_
    · intro j hj hlt
      have hj0 : j = 0 := by omega
      subst hj0
      show amendedEntryValid ⟨JSVal.string "user", JSVal.string "hello"⟩
      exact ⟨⟨Or.inl rfl, rfl, by decide⟩, rfl⟩
    · show ¬ amendedEntryValid ⟨JSVal.string "system", JSVal.string "x"⟩
      rintro ⟨⟨hr, _, _⟩, _⟩
      rcases hr with h | h <;> (injection h with h'; exact absurd h' (by decide))

/-- C10: every History Curator entry point is total on absent or non-sequence
input — `trimHistory` and `formatHistoryForGemini` return the empty list for
null/undefined/non-array arguments, `estimateTokens` returns 0 for any
non-string, and `validateHistory` returns an invalid result rather than
throwing (all four are total Lean functions on the modelled argument). -/
theorem c10_curator_total :
    (∀ m : Nat, trimHistory (HistArg.nonArray : HistArg MsgEntry) m = []) ∧
    formatHistoryForGemini HistArg.nonArray = [] ∧
    (∀ v : JSVal, v.isString = false → estimateTokens v = 0) ∧
    validateHistory HistArg.nonArray = ⟨false, some HistError.notArray⟩ := by
  refine ⟨fun m => rfl, rfl, ?_, rfl⟩
  intro v hv
  cases v <;> first | rfl | simp [JSVal.isString] at hv

/-- C10 witness: the quantified clauses at a concrete bound and a concrete
non-string value. -/
theorem c10_curator_total_witness :
    trimHistory (HistArg.nonArray : HistArg MsgEntry) 10 = [] ∧
    estimateTokens (JSVal.number 3) = 0 :=
  ⟨c10_curator_total.1 10, c10_curator_total.2.2.1 (JSVal.number 3) rfl⟩

theorem lookupText_cons_self (b : String) (p : Nat) (v : JSVal)
    (ts : List ((String × Nat) × JSVal)) :
    lookupText (((b, p), v) :: ts) b p = some v := by
  unfold lookupText
  rw [List.find?_cons_of_pos]
  · rfl
  · simp

/-- C1: on a (book, page) key not yet cached, the first `getOrExtractPageText`
call invokes the Generation Backend, stores the raw extraction, and returns
`cached = false` with the normalized text; every subsequent call for the same
key — with any image bytes and format — returns `cached = true` with the same
normalized stored text, does not invoke the image-to-text capability, and
leaves the state unchanged (so the clause applies to all later calls as
well). -/
theorem c1_text_cache_idempotent
    (extract : String → String → Except JsError JSVal) (st : TextCacheState)
    (b : String) (p : Nat) (img mime : String) (v : JSVal) (t : ExtractedText)
    (hmiss : lookupText st.texts b p = none)
    (hex : extract img mime = .ok v)
    (hnorm : normalizeExtractedText v = some t) :
    getOrExtractPageText extract st b p img mime =
      (some ⟨false, t⟩, true, ⟨((b, p), v) :: st.texts⟩) ∧
    ∀ img' mime' : String,
      getOrExtractPageText extract ⟨((b, p), v) :: st.texts⟩ b p img' mime' =
        (some ⟨true, t⟩, false, ⟨((b, p), v) :: st.texts⟩) := by
  constructor
  · simp only [getOrExtractPageText, hmiss, hex, hnorm]
  · intro img' mime'
    simp only [getOrExtractPageText, lookupText_cons_self, hnorm]

/-- C1 witness: a concrete miss followed by a hit with different image bytes
and format. -/
theorem c1_text_cache_idempotent_witness :
    getOrExtractPageText
        (fun _ _ => Except.ok (JSVal.object
          [("header", JSVal.string "H"), ("body", JSVal.string "B"),
           ("footer", JSVal.string "F")]))
        ⟨[]⟩ "book-1" 4 "aGVsbG8=" "image/png" =
      (some ⟨false, ⟨"H", "B", "F"⟩⟩, true,
       ⟨[(("book-1", 4), JSVal.object
          [("header", JSVal.string "H"), ("body", JSVal.string "B"),
           ("footer", JSVal.string "F")])]⟩) ∧
    getOrExtractPageText
        (fun _ _ => Except.ok (JSVal.object
          [("header", JSVal.string "H"), ("body", JSVal.string "B"),
           ("footer", JSVal.string "F")]))
        ⟨[(("book-1", 4), JSVal.object
          [("header", JSVal.string "H"), ("body", JSVal.string "B"),
           ("footer", JSVal.string "F")])]⟩ "book-1" 4 "b3RoZXI=" "image/jpeg" =
      (some ⟨true, ⟨"H", "B", "F"⟩⟩, false,
       ⟨[(("book-1", 4), JSVal.object
          [("header", JSVal.string "H"), ("body", JSVal.string "B"),
           ("footer", JSVal.string "F")])]⟩) :=
  ⟨(c1_text_cache_idempotent
      (fun _ _ => Except.ok (JSVal.object
        [("header", JSVal.string "H"), ("body", JSVal.string "B"),
         ("footer", JSVal.string "F")]))
      ⟨[]⟩ "book-1" 4 "aGVsbG8=" "image/png"
      (JSVal.object
        [("header", JSVal.string "H"), ("body", JSVal.string "B"),
         ("footer", JSVal.string "F")])
      ⟨"H", "B", "F"⟩ rfl rfl rfl).1,
   (c1_text_cache_idempotent
      (fun _ _ => Except.ok (JSVal.object
        [("header", JSVal.string "H"), ("body", JSVal.string "B"),
         ("footer", JSVal.string "F")]))
      ⟨[]⟩ "book-1" 4 "aGVsbG8=" "image/png"
      (JSVal.object
        [("header", JSVal.string "H"), ("body", JSVal.string "B"),
         ("footer", JSVal.string "F")])
      ⟨"H", "B", "F"⟩ rfl rfl rfl).2 "b3RoZXI=" "image/jpeg"⟩

/-- C2: with a well-formed request, `sendMessage` fails not-found when the
conversation is missing; fails access-denied for any non-owning requester
(before any state inspection); and for the owner fails with the distinct
`expired` outcome — invoking no generation call and persisting no message —
whenever the stored expiry is set and in the past, or no document reference is
bound. -/
theorem c2_sendMessage_access_before_state
    (findConversation : String → Option Conversation) (generate : Except JsError String)
    (userId conversationId message : String) (now : Int) (history : HistArg MsgEntry)
    (hcid : conversationId ≠ "") (hmsg : message ≠ "")
    (hlen : message.length ≤ 10000) :
    (findConversation conversationId = none →
      sendMessage findConversation generate userId conversationId message now history =
        ⟨.notFound, false, 0⟩) ∧
    (∀ conversation, findConversation conversationId = some conversation →
      conversation.user_id ≠ userId →
      sendMessage findConversation generate userId conversationId message now history =
        ⟨.accessDenied, false, 0⟩) ∧
    (∀ conversation, findConversation conversationId = some conversation →
      conversation.user_id = userId →
      ((∃ t, conversation.cache_expires_at = some t ∧ t < now) ∨
        conversation.gemini_file_uri = none) →
      ∃ msg,
        sendMessage findConversation generate userId conversationId message now history =
          ⟨.expired msg, false, 0⟩) := by
  have hif1 : ¬(conversationId = "" ∨ message = "") := by
    rintro (h | h)
    · exact hcid h
    · exact hmsg h
  have hif2 : ¬ message.length > 10000 := by omega
  refine ⟨?_, ?_, ?_⟩
  · intro hfind
    simp only [sendMessage, if_neg hif1, if_neg hif2, hfind]
  · intro conversation hfind hne
    simp only [sendMessage, if_neg hif1, if_neg hif2, hfind]
    rw [if_pos hne]
  · intro conversation hfind hown hstate
    simp only [sendMessage, if_neg hif1, if_neg hif2, hfind]
    rw [if_neg (not_not_intro hown)]
    rcases hstate with ⟨t, hexp, hlt⟩ | huri
    · simp only [hexp]
      rw [if_pos (decide_eq_true hlt)]
      exact ⟨_, rfl⟩
    · by_cases hexp : (match conversation.cache_expires_at with
                       | some t => decide (t < now)
                       | none => false) = true
      · rw [if_pos hexp]
        exact ⟨_, rfl⟩
      · rw [if_neg hexp]
        simp only [huri]
        exact ⟨_, rfl⟩

/-- C2 witness: a conversation owned by the requester with no bound document
reference — `sendMessage` returns the expired outcome with no generation call
and no persisted message. -/
theorem c2_sendMessage_access_before_state_witness :
    ∃ msg,
      sendMessage (fun _ => some ⟨"user-1", none, none⟩) (Except.ok "answer")
          "user-1" "conv-1" "hello" 0 (HistArg.arr []) =
        ⟨.expired msg, false, 0⟩ :=
  (c2_sendMessage_access_before_state (fun _ => some ⟨"user-1", none, none⟩)
      (Except.ok "answer") "user-1" "conv-1" "hello" 0 (HistArg.arr [])
      (by decide) (by decide) (by decide)).2.2
    ⟨"user-1", none, none⟩ rfl rfl (Or.inr rfl)

theorem chkWrite_int (max : Nat) (n : Int) (h0 : 0 ≤ n) (hm : n ≤ 8 * max) :
    chkWrite max (some n) = some (n / 8).toNat := by
  show (if n > 8 * (max : Int) ∨ n < 0 then none else some (n / 8).toNat) =
    some (n / 8).toNat
  rw [if_neg (by omega)]

theorem chkWrite_mul8 (max : Nat) (k : Int) (h0 : 0 ≤ k) (hm : k ≤ max) :
    chkWrite max (some (8 * k)) = some k.toNat := by
  rw [chkWrite_int max (8 * k) (by omega) (by omega)]
  congr 1
  omega

/-- The 44 bytes `createWavHeader` produces, as a function of the validated
written values: data length, sample rate, byte rate, block align, bit depth. -/
def wavHeaderOf (dl a c d e : Nat) : List Nat :=
  [82, 73, 70, 70] ++ u32le (36 + dl) ++ [87, 65, 86, 69] ++
  [102, 109, 116, 32] ++ u32le 16 ++ u16le 1 ++ u16le 1 ++
  u32le a ++ u32le c ++ u16le d ++ u16le e ++
  [100, 97, 116, 97] ++ u32le dl

theorem wav_drop44 (dl a c d e : Nat) (payload : List Nat) :
    (wavHeaderOf dl a c d e ++ payload).drop 44 = payload := rfl

theorem wav_take4 (dl a c d e : Nat) (payload : List Nat) :
    (wavHeaderOf dl a c d e ++ payload).take 4 = [82, 73, 70, 70] := rfl

theorem wav_fmt_tag (dl a c d e : Nat) (payload : List Nat) :
    ((wavHeaderOf dl a c d e ++ payload).drop 20).take 2 = u16le 1 := rfl

theorem wav_channels (dl a c d e : Nat) (payload : List Nat) :
    ((wavHeaderOf dl a c d e ++ payload).drop 22).take 2 = u16le 1 := rfl

theorem wav_rate (dl a c d e : Nat) (payload : List Nat) :
    ((wavHeaderOf dl a c d e ++ payload).drop 24).take 4 = u32le a := rfl

theorem wav_byte_rate (dl a c d e : Nat) (payload : List Nat) :
    ((wavHeaderOf dl a c d e ++ payload).drop 28).take 4 = u32le c := rfl

theorem wav_block_align (dl a c d e : Nat) (payload : List Nat) :
    ((wavHeaderOf dl a c d e ++ payload).drop 32).take 2 = u16le d := rfl

theorem wav_bit_depth (dl a c d e : Nat) (payload : List Nat) :
    ((wavHeaderOf dl a c d e ++ payload).drop 34).take 2 = u16le e := rfl

theorem wav_data_len (dl a c d e : Nat) (payload : List Nat) :
    ((wavHeaderOf dl a c d e ++ payload).drop 40).take 4 = u32le dl := rfl

theorem createWavHeader_eq (dl : Nat) (r b : Int)
    (hr0 : 0 ≤ r) (hrm : r ≤ 2 ^ 32 - 1)
    (hb0 : 0 ≤ b) (hbm : b ≤ 2 ^ 16 - 1)
    (hbr : r * b ≤ 8 * (2 ^ 32 - 1))
    (hdl : dl ≤ 2 ^ 32 - 1 - 36) :
    createWavHeader dl ⟨1, some r, b⟩ =
      some (wavHeaderOf dl r.toNat ((r * b) / 8).toNat (b / 8).toNat b.toNat) := by
  have e1 : chkWrite (2 ^ 32 - 1) (some (8 * (36 + (dl : Int)))) = some (36 + dl) := by
    rw [chkWrite_mul8 _ _ (by omega) (by push_cast; omega),
        show (36 + (dl : Int)).toNat = 36 + dl from by omega]
  have e2 : chkWrite (2 ^ 16 - 1) (some (8 * ((1 : Nat) : Int))) = some 1 := rfl
  have e3 : chkWrite (2 ^ 32 - 1) (some (8 * r)) = some r.toNat :=
    chkWrite_mul8 _ r hr0 (by push_cast; omega)
  have e4 : chkWrite (2 ^ 32 - 1) (some (r * ((1 : Nat) : Int) * b)) =
      some ((r * b) / 8).toNat := by
    have : r * ((1 : Nat) : Int) * b = r * b := by push_cast; ring
    rw [this, chkWrite_int _ _ (mul_nonneg hr0 hb0) (by push_cast at hbr ⊢; omega)]
  have e5 : chkWrite (2 ^ 16 - 1) (some (((1 : Nat) : Int) * b)) = some ((b / 8).toNat) := by
    have : ((1 : Nat) : Int) * b = b := by push_cast; ring
    rw [this, chkWrite_int _ _ hb0 (by push_cast; omega)]
  have e6 : chkWrite (2 ^ 16 - 1) (some (8 * b)) = some b.toNat :=
    chkWrite_mul8 _ b hb0 (by push_cast; omega)
  have e7 : chkWrite (2 ^ 32 - 1) (some (8 * (dl : Int))) = some dl := by
    rw [chkWrite_mul8 _ _ (by omega) (by push_cast; omega),
        show ((dl : Int)).toNat = dl from by omega]
  unfold createWavHeader
  simp only [Option.map_some']
  rw [e1, e2, e3, e4, e5, e6, e7]
  rfl

theorem createWavHeader_nan (dl : Nat) (b : Int)
    (hb0 : 0 ≤ b) (hbm : b ≤ 2 ^ 16 - 1) (hdl : dl ≤ 2 ^ 32 - 1 - 36) :
    createWavHeader dl ⟨1, none, b⟩ =
      some (wavHeaderOf dl 0 0 (b / 8).toNat b.toNat) := by
  have e1 : chkWrite (2 ^ 32 - 1) (some (8 * (36 + (dl : Int)))) = some (36 + dl) := by
    rw [chkWrite_mul8 _ _ (by omega) (by push_cast; omega),
        show (36 + (dl : Int)).toNat = 36 + dl from by omega]
  have e2 : chkWrite (2 ^ 16 - 1) (some (8 * ((1 : Nat) : Int))) = some 1 := rfl
  have e5 : chkWrite (2 ^ 16 - 1) (some (((1 : Nat) : Int) * b)) = some ((b / 8).toNat) := by
    have : ((1 : Nat) : Int) * b = b := by push_cast; ring
    rw [this, chkWrite_int _ _ hb0 (by push_cast; omega)]
  have e6 : chkWrite (2 ^ 16 - 1) (some (8 * b)) = some b.toNat :=
    chkWrite_mul8 _ b hb0 (by push_cast; omega)
  have e7 : chkWrite (2 ^ 32 - 1) (some (8 * (dl : Int))) = some dl := by
    rw [chkWrite_mul8 _ _ (by omega) (by push_cast; omega),
        show ((dl : Int)).toNat = dl from by omega]
  unfold createWavHeader
  simp only [Option.map_none']
  rw [e1, e2, e5, e6, e7]
  rfl

theorem createWavHeader_length {dl : Nat} {o : ParsedMime} {h : List Nat}
    (hh : createWavHeader dl o = some h) : h.length = 44 := by
  unfold createWavHeader at hh
  split at hh
  · injection hh with hh'
    subst hh'
    simp [u16le, u32le]
  · exact Option.noConfusion hh

theorem convertToWav_length {payload : List Nat} {mime : String} {wav : List Nat}
    (h : convertToWav payload mime = some wav) : wav.length = 44 + payload.length := by
  unfold convertToWav at h
  split at h
  · exact Option.noConfusion h
  · rename_i hd hhd
    injection h with h'
    subst h'
    rw [List.length_append, createWavHeader_length hhd]

theorem convertToWav_eq (payload : List Nat) (mime : String) (r b : Int)
    (hparse : parseMimeType mime = ⟨1, some r, b⟩)
    (hr0 : 0 ≤ r) (hrm : r ≤ 2 ^ 32 - 1)
    (hb0 : 0 ≤ b) (hbm : b ≤ 2 ^ 16 - 1)
    (hbr : r * b ≤ 8 * (2 ^ 32 - 1))
    (hdl : payload.length ≤ 2 ^ 32 - 1 - 36) :
    convertToWav payload mime =
      some (wavHeaderOf payload.length r.toNat ((r * b) / 8).toNat
              (b / 8).toNat b.toNat ++ payload) := by
  unfold convertToWav
  rw [hparse, createWavHeader_eq payload.length r b hr0 hrm hb0 hbm hbr hdl]

/-- C6 counterexample: on a cache miss whose codec-reported descriptor is
`audio/L16;rate=24000` (24 kHz, mono, 16-bit — parsed exactly so), a 47956-byte
payload (48000-byte WAV) gets duration `round(48000 / 176400) = 0`, while the
claim's formula with the codec-reported values gives
`round(byteLength / (24000 × 1 × 2)) = 1` for either reading of byteLength —
the code's divisor is hard-coded to the default profile. -/
theorem c6_duration_counterexample :
    pageAudioMissDuration (List.replicate 47956 0) "audio/L16;rate=24000" = some 0 ∧
    parseMimeType "audio/L16;rate=24000" = ⟨1, some 24000, 16⟩ ∧
    specDuration 48000 24000 1 2 = 1 ∧
    specDuration 47956 24000 1 2 = 1 := by
  refine ⟨?_, rfl, rfl, rfl⟩
  have hlen : (List.replicate 47956 (0 : Nat)).length = 47956 := by
    rw [List.length_replicate]
  have hw := convertToWav_eq (List.replicate 47956 0) "audio/L16;rate=24000" 24000 16
    rfl (by norm_num) (by norm_num) (by norm_num) (by norm_num) (by norm_num)
    (by rw [hlen]; norm_num)
  unfold pageAudioMissDuration
  rw [hw]
  simp only [Option.map_some']
  rw [convertToWav_length hw, hlen]
  rfl

/-- C6 (amended): whenever the wrapping succeeds, the duration computed and
persisted by the audio cache-miss path equals
`round(wavByteLength / (44100 × 2 × 2))` — always the hard-coded default
44.1 kHz/16-bit/stereo profile, regardless of the codec-reported format
descriptor. -/
theorem c6_duration_amended (payload : List Nat) (mime : String)
    (h : (convertToWav payload mime).isSome = true) :
    pageAudioMissDuration payload mime =
      some (jsRoundDiv (44 + payload.length) (44100 * 2 * 2)) := by
  rcases Option.isSome_iff_exists.mp h with ⟨wav, hw⟩
  unfold pageAudioMissDuration
  rw [hw]
  simp only [Option.map_some']
  rw [convertToWav_length hw]

/-- C6 witness: the amended theorem at a 4-byte payload with the
`audio/L16;rate=24000` descriptor. -/
theorem c6_duration_amended_witness :
    pageAudioMissDuration [0, 1, 2, 3] "audio/L16;rate=24000" =
      some (jsRoundDiv (44 + 4) (44100 * 2 * 2)) ∧
    jsRoundDiv (44 + 4) (44100 * 2 * 2) = 0 :=
  ⟨c6_duration_amended [0, 1, 2, 3] "audio/L16;rate=24000" rfl, rfl⟩

/-- C7: for every payload and every descriptor whose parsed sample rate and
bit depth are nonnegative, in range for the 32/16-bit header writes, with a
byte-multiple bit depth, `convertToWav` returns a buffer of exactly
`44 + payload.length` bytes: PCM format tag 1 at offsets 20–21, the (always 1)
channel count at 22–23, the sample rate little-endian at 24–27, a byte rate
with `byteRate × 8 = sampleRate × channels × bitsPerSample` at 28–31, a block
alignment with `blockAlign × 8 = channels × bitsPerSample` at 32–33, the bit
depth at 34–35, the payload length at 40–43, and the raw payload unchanged
from offset 44. -/
theorem c7_wav_layout (payload : List Nat) (mime : String) (r b : Int)
    (hparse : parseMimeType mime = ⟨1, some r, b⟩)
    (hr0 : 0 ≤ r) (hrm : r ≤ 2 ^ 32 - 1)
    (hb0 : 0 ≤ b) (hbm : b ≤ 2 ^ 16 - 1) (hb8 : (8 : Int) ∣ b)
    (hbr : r * b ≤ 8 * (2 ^ 32 - 1))
    (hdl : payload.length ≤ 2 ^ 32 - 1 - 36) :
    ∃ wav, convertToWav payload mime = some wav ∧
      wav.length = 44 + payload.length ∧
      wav.drop 44 = payload ∧
      wav.take 4 = [82, 73, 70, 70] ∧
      (wav.drop 20).take 2 = u16le 1 ∧
      (wav.drop 22).take 2 = u16le 1 ∧
      (wav.drop 24).take 4 = u32le r.toNat ∧
      (∃ br : Nat, (wav.drop 28).take 4 = u32le br ∧ (br : Int) * 8 = r * 1 * b) ∧
      (∃ ba : Nat, (wav.drop 32).take 2 = u16le ba ∧ (ba : Int) * 8 = 1 * b) ∧
      (wav.drop 34).take 2 = u16le b.toNat ∧
      (wav.drop 40).take 4 = u32le payload.length := by
  have hw := convertToWav_eq payload mime r b hparse hr0 hrm hb0 hbm hbr hdl
  refine ⟨_, hw, convertToWav_length hw, wav_drop44 .., wav_take4 .., wav_fmt_tag ..,
    wav_channels .., wav_rate ..,
    ⟨((r * b) / 8).toNat, wav_byte_rate .., ?_⟩,
    ⟨(b / 8).toNat, wav_block_align .., ?_⟩, wav_bit_depth .., wav_data_len ..⟩
  · have h8 : (8 : Int) ∣ r * b := hb8.mul_left r
    have hnn : 0 ≤ r * b / 8 := Int.ediv_nonneg (mul_nonneg hr0 hb0) (by norm_num)
    rw [Int.toNat_of_nonneg hnn, Int.ediv_mul_cancel h8, mul_one]
  · have hnn : 0 ≤ b / 8 := Int.ediv_nonneg hb0 (by norm_num)
    rw [Int.toNat_of_nonneg hnn, Int.ediv_mul_cancel hb8, one_mul]

/-- C7 witness: the layout theorem at payload `[1, 2, 3]` and the spec's
round-trip descriptor `audio/L16;rate=24000`. -/
theorem c7_wav_layout_witness :
    ∃ wav, convertToWav [1, 2, 3] "audio/L16;rate=24000" = some wav ∧
      wav.length = 44 + ([1, 2, 3] : List Nat).length ∧
      wav.drop 44 = [1, 2, 3] ∧
      wav.take 4 = [82, 73, 70, 70] ∧
      (wav.drop 20).take 2 = u16le 1 ∧
      (wav.drop 22).take 2 = u16le 1 ∧
      (wav.drop 24).take 4 = u32le (Int.toNat 24000) ∧
      (∃ br : Nat, (wav.drop 28).take 4 = u32le br ∧ (br : Int) * 8 = 24000 * 1 * 16) ∧
      (∃ ba : Nat, (wav.drop 32).take 2 = u16le ba ∧ (ba : Int) * 8 = 1 * 16) ∧
      (wav.drop 34).take 2 = u16le (Int.toNat 16) ∧
      (wav.drop 40).take 4 = u32le ([1, 2, 3] : List Nat).length :=
  c7_wav_layout [1, 2, 3] "audio/L16;rate=24000" 24000 16 rfl (by norm_num)
    (by norm_num) (by norm_num) (by norm_num) (by norm_num) (by norm_num) (by norm_num)

/-- C8 counterexample: the malformed descriptor `audio/L16;rate=-1` does not
fall back to the default sample rate — `parseInt('-1', 10)` is assigned
verbatim — and the header write then throws `ERR_OUT_OF_RANGE` on the negative
value, so the wrapping fails instead of completing. -/
theorem c8_wrap_counterexample :
    parseMimeType "audio/L16;rate=-1" = ⟨1, some (-1), 16⟩ ∧
    convertToWav [0] "audio/L16;rate=-1" = none :=
  ⟨rfl, rfl⟩

/-- C8 (amended): parsing itself never fails — the channel count is always the
default 1, and rate/bit-depth default to 22050/16 when absent — and the
wrapping completes for every descriptor whose parsed values are in range: in
particular when the rate is `NaN` (a non-numeric `rate` parameter, silently
written as 0 rather than the default) or a nonnegative in-range number.  A
rate that parses to a negative or oversized number, however, makes the header
write throw (see the counterexample). -/
theorem c8_wrap_amended :
    (∀ mime : String, (parseMimeType mime).numChannels = 1) ∧
    (∀ (payload : List Nat) (mime : String) (b : Int),
      parseMimeType mime = ⟨1, none, b⟩ → 0 ≤ b → b ≤ 2 ^ 16 - 1 →
      payload.length ≤ 2 ^ 32 - 1 - 36 →
      (convertToWav payload mime).isSome = true) ∧
    (∀ (payload : List Nat) (mime : String) (r b : Int),
      parseMimeType mime = ⟨1, some r, b⟩ → 0 ≤ r → r ≤ 2 ^ 32 - 1 →
      0 ≤ b → b ≤ 2 ^ 16 - 1 → r * b ≤ 8 * (2 ^ 32 - 1) →
      payload.length ≤ 2 ^ 32 - 1 - 36 →
      (convertToWav payload mime).isSome = true) := by
  refine ⟨fun mime => rfl, ?_, ?_⟩
  · intro payload mime b hparse hb0 hbm hdl
    unfold convertToWav
    rw [hparse, createWavHeader_nan payload.length b hb0 hbm hdl]
    rfl
  · intro payload mime r b hparse hr0 hrm hb0 hbm hbr hdl
    unfold convertToWav
    rw [hparse, createWavHeader_eq payload.length r b hr0 hrm hb0 hbm hbr hdl]
    rfl

/-- C8 witness: the amended theorem at the NaN-rate descriptor
`audio/L16;rate=foo` and at the empty descriptor (full defaults). -/
theorem c8_wrap_amended_witness :
    (convertToWav [0, 1] "audio/L16;rate=foo").isSome = true ∧
    (convertToWav [0, 1] "").isSome = true :=
  ⟨c8_wrap_amended.2.1 [0, 1] "audio/L16;rate=foo" 16 rfl (by norm_num) (by norm_num)
     (by norm_num),
   c8_wrap_amended.2.2 [0, 1] "" 22050 16 rfl (by norm_num) (by norm_num) (by norm_num)
     (by norm_num) (by norm_num) (by norm_num)⟩

/-- The back-off delays the retry loop sleeps starting from attempt counter
`a`: `2^(a+1)·d, 2^(a+2)·d, …` — doubling per attempt. -/
def backoffWaits (d : Nat) : Nat → Nat → List Nat
  | _, 0 => []
  | a, n + 1 => 2 ^ (a + 1) * d :: backoffWaits d (a + 1) n

theorem backoffWaits_eq (d : Nat) :
    ∀ n a, backoffWaits d a n = (List.range n).map (fun i => 2 ^ (a + i + 1) * d) := by
  intro n
  induction n with
  | zero => intro a; rfl
  | succ n ih =>
    intro a
    unfold backoffWaits
    rw [ih (a + 1)]
    have hfun : ∀ i ∈ List.range n,
        ((fun i => 2 ^ (a + i + 1) * d) ∘ Nat.succ) i =
          (fun i => 2 ^ (a + 1 + i + 1) * d) i := by
      intro i _
      simp only [Function.comp]
      rw [show a + (i + 1) + 1 = a + 1 + i + 1 from by omega]
    rw [List.range_succ_eq_map, List.map_cons, List.map_map, List.map_congr_left hfun]

theorem backoffWaits_zero (d n : Nat) :
    backoffWaits d 0 n = (List.range n).map (fun i => 2 ^ (i + 1) * d) := by
  rw [backoffWaits_eq]
  simp

theorem retryLoop_ok {α : Type} (op : Nat → Except JsError α) (maxA d : Nat) :
    ∀ (n a : Nat) (x : α), a + n < maxA →
      (∀ i, a ≤ i → i < a + n → ∃ e, op i = Except.error e ∧ includes429 e = true) →
      op (a + n) = Except.ok x →
      retryLoop op maxA d a (maxA - a) = (some (Except.ok x), backoffWaits d a n) := by
  intro n
  induction n with
  | zero =>
    intro a x hlt _ hok
    rw [show maxA - a = (maxA - a - 1) + 1 from by omega]
    unfold retryLoop
    rw [Nat.add_zero] at hok
    simp only [hok]
    rfl
  | succ n ih =>
    intro a x hlt herr hok
    rw [show maxA - a = (maxA - a - 1) + 1 from by omega]
    unfold retryLoop
    obtain ⟨e, he, h429⟩ := herr a (le_refl a) (by omega)
    simp only [he]
    rw [if_pos ⟨h429, by omega⟩]
    rw [show maxA - a - 1 = maxA - (a + 1) from by omega]
    rw [ih (a + 1) x (by omega)
      (fun i hi1 hi2 => herr i (by omega) (by omega))
      (by rw [show a + 1 + n = a + (n + 1) from by omega]; exact hok)]
    rfl

theorem retryLoop_allerr {α : Type} (op : Nat → Except JsError α) (maxA d : Nat) :
    ∀ (n a : Nat) (e : JsError), a + n + 1 = maxA →
      (∀ i, a ≤ i → i < maxA → ∃ e', op i = Except.error e' ∧ includes429 e' = true) →
      op (maxA - 1) = Except.error e →
      retryLoop op maxA d a (maxA - a) = (some (Except.error e), backoffWaits d a n) := by
  intro n
  induction n with
  | zero =>
    intro a e hmax _ hlast
    rw [show maxA - 1 = a from by omega] at hlast
    rw [show maxA - a = 0 + 1 from by omega]
    unfold retryLoop
    simp only [hlast]
    rw [if_neg (by rintro ⟨_, h⟩; omega)]
    rfl
  | succ n ih =>
    intro a e hmax herr hlast
    rw [show maxA - a = (maxA - a - 1) + 1 from by omega]
    unfold retryLoop
    obtain ⟨e', he', h429⟩ := herr a (le_refl a) (by omega)
    simp only [he']
    rw [if_pos ⟨h429, by omega⟩]
    rw [show maxA - a - 1 = maxA - (a + 1) from by omega]
    rw [ih (a + 1) e (by omega) (fun i hi1 hi2 => herr i (by omega) hi2) hlast]
    rfl

theorem retryWithBackoff_non429 {α : Type} (op : Nat → Except JsError α)
    (maxA d : Nat) (e : JsError) (hmax : 1 ≤ maxA) (h : op 0 = Except.error e)
    (h429 : includes429 e = false) :
    retryWithBackoff op maxA d = (some (Except.error e), []) := by
  unfold retryWithBackoff
  rw [show maxA = (maxA - 1) + 1 from by omega]
  unfold retryLoop
  simp only [h]
  rw [if_neg (by rintro ⟨hc, _⟩; rw [h429] at hc; exact Bool.noConfusion hc)]

/-- C9 counterexample: a rate-limited first upstream attempt (message contains
`429`) that would succeed on retry.  `processImageToText` — the text
extraction path of the Page Artifact Cache — makes exactly one upstream call
and propagates the error with no retry, contrary to the claim that both
generation paths apply the back-off retry; `generateAudio` on the same
scenario retries after a 2000 ms wait and succeeds. -/
theorem c9_retry_counterexample :
    processImageToText "imgdata" "image/png"
        (fun n => if n = 0 then Except.error ⟨"got 429 rate limit"⟩ else Except.ok "\x7b\x7d") =
      (Except.error ⟨"got 429 rate limit"⟩, 1) ∧
    includes429 ⟨"got 429 rate limit"⟩ = true ∧
    generateAudio "text" 6000 3 1000
        (fun _ n => if n = 0 then Except.error ⟨"got 429 rate limit"⟩
                    else Except.ok (some ⟨"QUJD", "audio/L16;rate=24000"⟩)) =
      (some (Except.ok ⟨"QUJD", "audio/L16;rate=24000"⟩), [2000]) :=
  ⟨rfl, rfl, rfl⟩

/-- C9 (amended): only the text-to-audio path retries.  `processImageToText`
performs exactly one upstream call and propagates any error (rate-limited or
not) unchanged; `generateAudio` wraps its upstream call in
`retryWithBackoff`, which — for errors whose message contains `429` — retries
up to the attempt cap with doubling delays `2^(i+1)·retryDelay`, returns the
first success, propagates a non-rate-limit error immediately with no wait, and
after the cap's worth of consecutive rate-limit errors propagates the last
error. -/
theorem c9_retry_amended :
    (∀ (img mime : String) (up : Nat → Except JsError String),
      img ≠ "" → mime ≠ "" → "image/".data.isPrefixOf mime.data = true →
      (processImageToText img mime up).2 = 1 ∧
      ∀ e, up 0 = Except.error e →
        (processImageToText img mime up).1 = Except.error e) ∧
    (∀ (text : String) (maxLen maxR d : Nat)
       (up : String → Nat → Except JsError (Option AudioChunk)) (n : Nat)
       (chunk : AudioChunk),
      n < maxR →
      (∀ i, i < n → ∃ e, up (truncateForAudio text maxLen) i = Except.error e ∧
        includes429 e = true) →
      up (truncateForAudio text maxLen) n = Except.ok (some chunk) →
      generateAudio text maxLen maxR d up =
        (some (Except.ok chunk), (List.range n).map (fun i => 2 ^ (i + 1) * d))) ∧
    (∀ (text : String) (maxLen maxR d : Nat)
       (up : String → Nat → Except JsError (Option AudioChunk)) (e : JsError),
      1 ≤ maxR →
      up (truncateForAudio text maxLen) 0 = Except.error e → includes429 e = false →
      generateAudio text maxLen maxR d up = (some (Except.error e), [])) ∧
    (∀ (text : String) (maxLen maxR d : Nat)
       (up : String → Nat → Except JsError (Option AudioChunk)) (e : JsError),
      1 ≤ maxR →
      (∀ i, i < maxR → ∃ e', up (truncateForAudio text maxLen) i = Except.error e' ∧
        includes429 e' = true) →
      up (truncateForAudio text maxLen) (maxR - 1) = Except.error e →
      generateAudio text maxLen maxR d up =
        (some (Except.error e),
         (List.range (maxR - 1)).map (fun i => 2 ^ (i + 1) * d))) := by
  refine ⟨?_, ?_, ?_, ?_⟩
  · intro img mime up himg hmime hpre
    unfold processImageToText
    rw [if_neg himg, if_neg hmime, if_neg (by rw [hpre]; exact not_not_intro rfl)]
    constructor
    · cases hup : up 0 <;> simp [hup]
    · intro e hup
      simp [hup]
  · intro text maxLen maxR d up n chunk hn herr hok
    unfold generateAudio retryWithBackoff
    rw [show maxR = maxR - 0 from rfl, ← backoffWaits_zero d n]
    refine retryLoop_ok _ maxR d n 0 chunk (by omega) ?_ ?_
    · intro i hi1 hi2
      obtain ⟨e, he, h429⟩ := herr i (by omega)
      exact ⟨e, by simp only [he], h429⟩
    · rw [Nat.zero_add]
      simp only [hok]
  · intro text maxLen maxR d up e hmax hup h429
    unfold generateAudio
    exact retryWithBackoff_non429 _ maxR d e hmax (by simp only [hup]) h429
  · intro text maxLen maxR d up e hmax herr hlast
    unfold generateAudio retryWithBackoff
    rw [← backoffWaits_zero d (maxR - 1)]
    refine retryLoop_allerr _ maxR d (maxR - 1) 0 e (by omega) ?_ ?_
    · intro i hi1 hi2
      obtain ⟨e', he', h429⟩ := herr i hi2
      exact ⟨e', by simp only [he'], h429⟩
    · simp only [hlast]

/-- C9 witness: the amended theorem at a single-call image extraction and at a
one-retry audio generation with `maxRetries = 3`, `retryDelay = 1000`. -/
theorem c9_retry_amended_witness :
    (processImageToText "imgdata" "image/png"
        (fun _ => Except.error ⟨"got 429 rate limit"⟩)).2 = 1 ∧
    generateAudio "page text" 6000 3 1000
        (fun _ n => if n = 0 then Except.error ⟨"got 429 rate limit"⟩
                    else Except.ok (some ⟨"QUJD", "audio/L16"⟩)) =
      (some (Except.ok ⟨"QUJD", "audio/L16"⟩),
       (List.range 1).map (fun i => 2 ^ (i + 1) * 1000)) :=
  ⟨(c9_retry_amended.1 "imgdata" "image/png" (fun _ => Except.error ⟨"got 429 rate limit"⟩)
      (by decide) (by decide) rfl).1,
   c9_retry_amended.2.1 "page text" 6000 3 1000
     (fun _ n => if n = 0 then Except.error ⟨"got 429 rate limit"⟩
                 else Except.ok (some ⟨"QUJD", "audio/L16"⟩))
     1 ⟨"QUJD", "audio/L16"⟩ (by decide)
     (fun i hi => by
       have h0 : i = 0 := by omega
       subst h0
       exact ⟨⟨"got 429 rate limit"⟩, rfl, rfl⟩)
     rfl⟩
